import Mathlib

/-!
Verification of the ML-Platform-Health-Agent collection/merge/analysis pipeline.

Shallow embedding of `src/aggregator.py` and `src/agent.py`.  Python dicts with
possibly-absent keys are modelled as association lists / `Option`-valued record
fields; the external narrative service and the stdlib JSON parser are modelled
as oracle inputs (the service behaviour is a parameter of `analyse`).
-/

namespace HealthAgent

/-- `STATUS_RANK` dict of `aggregator.py` line 16: RAG status priority.
`none` models a key miss. -/
def STATUS_RANK (s : String) : Option Nat :=
  if s = "healthy" then some 0
  else if s = "warning" then some 1
  else if s = "critical" then some 2
  else if s = "error" then some 2
  else none

/-- `STATUS_RANK.get(s, 0)` — dict lookup with default 0. -/
def statusRankD (s : String) : Nat := (STATUS_RANK s).getD 0

/-- One fold step of the overall-status derivation (`aggregator.py` lines 50–54):
replace the accumulator only when the new status has *strictly* greater rank. -/
def mergeStep (acc s : String) : String :=
  if statusRankD s > statusRankD acc then s else acc

/-- The status merge: fold of `mergeStep` over the statuses in completion
order, starting from `"healthy"` (`aggregator.py` lines 50–54). -/
def mergeStatus (l : List String) : String := l.foldl mergeStep "healthy"

/-- The four known status values. -/
def knownStatuses : List String := ["healthy", "warning", "critical", "error"]

/-- Python `d.get(k)` on a string-keyed dict, modelled on an association list. -/
def dget {α : Type} : List (String × α) → String → Option α
  | [], _ => none
  | p :: rest, k => if p.1 = k then some p.2 else dget rest k

/-- An entry of a collector's detail lists (a job / alert / ticket / check
dict; its fields are modelled as flat string fields, which the pipeline under
verification never inspects). -/
abbrev JobEntry := List (String × String)

/-- A collector result dict (see `collectors/*.py` and the error dict
synthesized in `aggregator.py` lines 42–47).  Keys that a given collector may
or may not set are `Option`-valued; `none` models an absent key. -/
structure SrcResult where
  source : Option String := none
  status : Option String := none
  error : Option String := none
  collected_at : Option String := none
  summary : Option (List (String × Int)) := none
  failed_jobs : Option (List JobEntry) := none
  running_jobs : Option (List JobEntry) := none
  completed_jobs : Option (List JobEntry) := none
  compute : Option (List JobEntry) := none
  critical_alerts : Option (List JobEntry) := none
  warning_alerts : Option (List JobEntry) := none
  resource_health : Option (List JobEntry) := none
  open_tickets : Option (List JobEntry) := none
  resolved_last_24h : Option (List JobEntry) := none
  checks : Option (List JobEntry) := none
  lookback_hours : Option Int := none
deriving DecidableEq

/-- One wrapped collector invocation (`aggregator.py` lines 37–47): a normal
return is used as-is; a raised exception (modelled as `Except.error` with the
exception's message) is converted to an error `SourceResult` dict. -/
def runCollector (now : String) (name : String) (b : Except String SrcResult) :
    SrcResult :=
  match b with
  | .ok r => r
  | .error e =>
      { source := some name, status := some "error", error := some e,
        collected_at := some now }

/-- The `results` mapping assembled by `collect_all` (`aggregator.py` lines
32–47).  The list order models the completion order of the futures; the
behaviour of each collector (return value or raised exception) is an input. -/
def collectResults (now : String)
    (collectors : List (String × Except String SrcResult)) :
    List (String × SrcResult) :=
  collectors.map fun p => (p.1, runCollector now p.1 p.2)

/-- Overall-status derivation (`aggregator.py` lines 50–54): fold of the
strict-greater-rank update over `r.get("status", "healthy")` of each result,
in mapping (= completion) order. -/
def deriveOverall (results : List (String × SrcResult)) : String :=
  mergeStatus (results.map fun p => p.2.status.getD "healthy")

/-- `results.get(name, {})` as used by `_extract_quick_facts`. -/
def getSrc (results : List (String × SrcResult)) (n : String) : SrcResult :=
  (dget results n).getD {}

/-- `r.get("summary", {}).get(k, 0)`. -/
def sumGet (r : SrcResult) (k : String) : Int :=
  (dget (r.summary.getD []) k).getD 0

/-- `_extract_quick_facts` (`aggregator.py` lines 69–99): each source block is
emitted only when that source's status is not `"error"`. -/
def extract_quick_facts (results : List (String × SrcResult)) :
    List (String × Int) :=
  let ml := getSrc results "azure_ml"
  let mon := getSrc results "azure_monitor"
  let jira := getSrc results "jira"
  let shell := getSrc results "shell"
  (if ml.status ≠ some "error" then
    [("ml_jobs_failed", sumGet ml "failed"),
     ("ml_jobs_running", sumGet ml "running"),
     ("ml_jobs_completed", sumGet ml "completed")] else [])
  ++ (if mon.status ≠ some "error" then
    [("monitor_critical_alerts", sumGet mon "critical"),
     ("monitor_warnings", sumGet mon "warnings")] else [])
  ++ (if jira.status ≠ some "error" then
    [("jira_open_high_priority", sumGet jira "open_high_priority"),
     ("jira_resolved_24h", sumGet jira "resolved_last_24h"),
     ("jira_created_7d", sumGet jira "created_last_7d")] else [])
  ++ (if shell.status ≠ some "error" then
    [("shell_checks_critical", sumGet shell "critical"),
     ("shell_checks_warnings", sumGet shell "warnings")] else [])

/-- The unified snapshot dict built by `collect_all` (`aggregator.py` lines
57–63). -/
structure AggSnapshot where
  collected_at : String
  overall_status : String
  sources : List (String × SrcResult)
  quick_facts : List (String × Int)
deriving DecidableEq

/-- `collect_all` (`aggregator.py` lines 19–66) over the configured collector
behaviours, given in completion order. -/
def collect_all (now : String)
    (collectors : List (String × Except String SrcResult)) : AggSnapshot :=
  let results := collectResults now collectors
  { collected_at := now
    overall_status := deriveOverall results
    sources := results
    quick_facts := extract_quick_facts results }

/-! ### Rank lemmas for the status merge -/

theorem statusRankD_mergeStep (acc s : String) :
    statusRankD (mergeStep acc s) = max (statusRankD acc) (statusRankD s) := by
  unfold mergeStep
  split <;> omega

theorem statusRankD_foldl (l : List String) :
    ∀ acc, statusRankD (l.foldl mergeStep acc) =
      l.foldl (fun a s => max a (statusRankD s)) (statusRankD acc) := by
  induction l with
  | nil => intro acc; rfl
  | cons x xs ih =>
      intro acc
      simp only [List.foldl_cons, ih, statusRankD_mergeStep]

theorem statusRankD_ne_zero_mem (s : String) (h : statusRankD s ≠ 0) :
    s ∈ knownStatuses := by
  unfold statusRankD STATUS_RANK at h
  split_ifs at h with h1 h2 h3 h4 <;>
    simp_all [knownStatuses]

theorem mergeStep_mem (acc s : String) (h : acc ∈ knownStatuses) :
    mergeStep acc s ∈ knownStatuses := by
  unfold mergeStep
  split
  · next hgt => exact statusRankD_ne_zero_mem s (by omega)
  · exact h

theorem foldl_mergeStep_mem (l : List String) :
    ∀ acc, acc ∈ knownStatuses → l.foldl mergeStep acc ∈ knownStatuses := by
  induction l with
  | nil => intro acc h; exact h
  | cons x xs ih => intro acc h; exact ih _ (mergeStep_mem acc x h)

theorem mergeRank_eq (l : List String) :
    statusRankD (mergeStatus l) = (l.map statusRankD).foldl max 0 := by
  rw [mergeStatus, statusRankD_foldl, List.foldl_map]
  simp [statusRankD, STATUS_RANK]

/-! ### Claim theorems about the status merge -/

/-- C5: for every sequence of statuses drawn from the four known values, the
merged overall status has the maximum severity rank among the inputs under the
fixed ranking healthy(0) < warning(1) < critical(2) = error(2), and merging an
empty sequence yields healthy. -/
theorem merge_is_max_rank (l : List String)
    (_hl : ∀ s ∈ l, s ∈ knownStatuses) :
    statusRankD (mergeStatus l) = (l.map statusRankD).foldl max 0 ∧
    mergeStatus [] = "healthy" :=
  ⟨mergeRank_eq l, rfl⟩

/-- Witness for C5 at the spec's own example `[healthy, warning, healthy]`. -/
theorem merge_is_max_rank_witness :
    statusRankD (mergeStatus ["healthy", "warning", "healthy"]) =
      ((["healthy", "warning", "healthy"].map statusRankD).foldl max 0) ∧
    mergeStatus [] = "healthy" :=
  merge_is_max_rank ["healthy", "warning", "healthy"] (by decide)

/-- C3 counterexample: the merge value is NOT invariant under permutation of
the input sequence — with both rank-2 statuses present, the first one
encountered wins, so `merge([critical, error]) = critical` while
`merge([error, critical]) = error`, refuting the claim that both yield
`critical`. -/
theorem merge_perm_counterexample :
    mergeStatus ["critical", "error"] = "critical" ∧
    mergeStatus ["error", "critical"] = "error" ∧
    mergeStatus ["error", "critical"] ≠ mergeStatus ["critical", "error"] := by
  decide

/-- C3 amended: the merge's severity RANK is invariant under permutation of
the input sequence, but the merged status value itself is only the first
status attaining the maximal rank: `merge([critical, error]) = critical`
whereas `merge([error, critical]) = error`. -/
theorem merge_rank_perm_invariant :
    (∀ l₁ l₂ : List String, l₁.Perm l₂ →
      statusRankD (mergeStatus l₁) = statusRankD (mergeStatus l₂)) ∧
    mergeStatus ["critical", "error"] = "critical" ∧
    mergeStatus ["error", "critical"] = "error" := by
  refine ⟨?_, by decide, by decide⟩
  intro l₁ l₂ hp
  rw [mergeRank_eq, mergeRank_eq]
  exact (hp.map statusRankD).foldl_eq' (fun x _ y _ z => by omega) 0

/-- Witness for C3's amended theorem at a concrete permutation. -/
theorem merge_rank_perm_invariant_witness :
    statusRankD (mergeStatus ["healthy", "warning"]) =
      statusRankD (mergeStatus ["warning", "healthy"]) :=
  merge_rank_perm_invariant.1 _ _ (by decide)

/-- C10: for every results mapping — including ones whose status strings lie
outside the known set or omit the status key — the overall status computed by
`collect_all` is one of the four known values; an unrecognised status ranks
zero and can never be selected. -/
theorem overall_status_always_known :
    (∀ results : List (String × SrcResult),
      deriveOverall results ∈ knownStatuses) ∧
    (∀ (now : String) (collectors : List (String × Except String SrcResult)),
      (collect_all now collectors).overall_status ∈ knownStatuses) ∧
    (∀ s : String, s ∉ knownStatuses → statusRankD s = 0) := by
  refine ⟨?_, ?_, ?_⟩
  · intro results
    exact foldl_mergeStep_mem _ "healthy" (by decide)
  · intro now collectors
    exact foldl_mergeStep_mem _ "healthy" (by decide)
  · intro s hs
    by_contra h
    exact hs (statusRankD_ne_zero_mem s h)

/-- Witness for C10: a collector reporting the unknown status `"bogus"` and one
omitting the status key still give a known overall status, and `"bogus"` ranks
zero. -/
theorem overall_status_always_known_witness :
    deriveOverall [("x", { status := some "bogus" }), ("y", {})] ∈
      knownStatuses ∧
    statusRankD "bogus" = 0 :=
  ⟨overall_status_always_known.1 _,
   overall_status_always_known.2.2 "bogus" (by decide)⟩

/-- C4: `collect_all` returns one entry per configured source, in the
configured key set; a collector that raises contributes an `"error"` entry
carrying the exception message, and every non-raising collector's result is
present unchanged. -/
theorem collect_all_completeness_isolation (now : String)
    (collectors : List (String × Except String SrcResult)) :
    ((collect_all now collectors).sources.map Prod.fst =
        collectors.map Prod.fst) ∧
    (∀ n msg, (n, Except.error msg) ∈ collectors →
      ((n, { source := some n, status := some "error", error := some msg,
             collected_at := some now }) : String × SrcResult) ∈
        (collect_all now collectors).sources) ∧
    (∀ n r, (n, Except.ok r) ∈ collectors →
      (n, r) ∈ (collect_all now collectors).sources) := by
  refine ⟨?_, ?_, ?_⟩
  · show (collectors.map _).map Prod.fst = _
    rw [List.map_map]
    rfl
  · intro n msg hmem
    exact List.mem_map_of_mem (fun p => (p.1, runCollector now p.1 p.2)) hmem
  · intro n r hmem
    exact List.mem_map_of_mem (fun p => (p.1, runCollector now p.1 p.2)) hmem

/-! ### Quick-fact lookup characterizations (one per emitted key) -/

theorem dget_qf_ml_failed (results : List (String × SrcResult)) :
    dget (extract_quick_facts results) "ml_jobs_failed" =
      if (getSrc results "azure_ml").status ≠ some "error" then
        some (sumGet (getSrc results "azure_ml") "failed") else none := by
  simp only [extract_quick_facts]
  split <;> split <;> split <;> split <;> simp [dget]

theorem dget_qf_ml_running (results : List (String × SrcResult)) :
    dget (extract_quick_facts results) "ml_jobs_running" =
      if (getSrc results "azure_ml").status ≠ some "error" then
        some (sumGet (getSrc results "azure_ml") "running") else none := by
  simp only [extract_quick_facts]
  split <;> split <;> split <;> split <;> simp [dget]

theorem dget_qf_ml_completed (results : List (String × SrcResult)) :
    dget (extract_quick_facts results) "ml_jobs_completed" =
      if (getSrc results "azure_ml").status ≠ some "error" then
        some (sumGet (getSrc results "azure_ml") "completed") else none := by
  simp only [extract_quick_facts]
  split <;> split <;> split <;> split <;> simp [dget]

theorem dget_qf_mon_critical (results : List (String × SrcResult)) :
    dget (extract_quick_facts results) "monitor_critical_alerts" =
      if (getSrc results "azure_monitor").status ≠ some "error" then
        some (sumGet (getSrc results "azure_monitor") "critical") else none := by
  simp only [extract_quick_facts]
  split <;> split <;> split <;> split <;> simp [dget]

theorem dget_qf_mon_warnings (results : List (String × SrcResult)) :
    dget (extract_quick_facts results) "monitor_warnings" =
      if (getSrc results "azure_monitor").status ≠ some "error" then
        some (sumGet (getSrc results "azure_monitor") "warnings") else none := by
  simp only [extract_quick_facts]
  split <;> split <;> split <;> split <;> simp [dget]

theorem dget_qf_jira_open (results : List (String × SrcResult)) :
    dget (extract_quick_facts results) "jira_open_high_priority" =
      if (getSrc results "jira").status ≠ some "error" then
        some (sumGet (getSrc results "jira") "open_high_priority") else none := by
  simp only [extract_quick_facts]
  split <;> split <;> split <;> split <;> simp [dget]

theorem dget_qf_jira_resolved (results : List (String × SrcResult)) :
    dget (extract_quick_facts results) "jira_resolved_24h" =
      if (getSrc results "jira").status ≠ some "error" then
        some (sumGet (getSrc results "jira") "resolved_last_24h") else none := by
  simp only [extract_quick_facts]
  split <;> split <;> split <;> split <;> simp [dget]

theorem dget_qf_jira_created (results : List (String × SrcResult)) :
    dget (extract_quick_facts results) "jira_created_7d" =
      if (getSrc results "jira").status ≠ some "error" then
        some (sumGet (getSrc results "jira") "created_last_7d") else none := by
  simp only [extract_quick_facts]
  split <;> split <;> split <;> split <;> simp [dget]

theorem dget_qf_shell_critical (results : List (String × SrcResult)) :
    dget (extract_quick_facts results) "shell_checks_critical" =
      if (getSrc results "shell").status ≠ some "error" then
        some (sumGet (getSrc results "shell") "critical") else none := by
  simp only [extract_quick_facts]
  split <;> split <;> split <;> split <;> simp [dget]

theorem dget_qf_shell_warnings (results : List (String × SrcResult)) :
    dget (extract_quick_facts results) "shell_checks_warnings" =
      if (getSrc results "shell").status ≠ some "error" then
        some (sumGet (getSrc results "shell") "warnings") else none := by
  simp only [extract_quick_facts]
  split <;> split <;> split <;> split <;> simp [dget]

/-- C7: a source whose status is `"error"` contributes none of its fact keys
to `quick_facts` (no placeholder of any kind), while a source whose status is
healthy, warning, or critical contributes its full fixed set of numeric fact
keys. -/
theorem quick_facts_error_omission (results : List (String × SrcResult)) :
    ((getSrc results "azure_ml").status = some "error" →
      dget (extract_quick_facts results) "ml_jobs_failed" = none ∧
      dget (extract_quick_facts results) "ml_jobs_running" = none ∧
      dget (extract_quick_facts results) "ml_jobs_completed" = none) ∧
    ((getSrc results "azure_ml").status ∈
        [some "healthy", some "warning", some "critical"] →
      dget (extract_quick_facts results) "ml_jobs_failed" =
        some (sumGet (getSrc results "azure_ml") "failed") ∧
      dget (extract_quick_facts results) "ml_jobs_running" =
        some (sumGet (getSrc results "azure_ml") "running") ∧
      dget (extract_quick_facts results) "ml_jobs_completed" =
        some (sumGet (getSrc results "azure_ml") "completed")) ∧
    ((getSrc results "azure_monitor").status = some "error" →
      dget (extract_quick_facts results) "monitor_critical_alerts" = none ∧
      dget (extract_quick_facts results) "monitor_warnings" = none) ∧
    ((getSrc results "azure_monitor").status ∈
        [some "healthy", some "warning", some "critical"] →
      dget (extract_quick_facts results) "monitor_critical_alerts" =
        some (sumGet (getSrc results "azure_monitor") "critical") ∧
      dget (extract_quick_facts results) "monitor_warnings" =
        some (sumGet (getSrc results "azure_monitor") "warnings")) ∧
    ((getSrc results "jira").status = some "error" →
      dget (extract_quick_facts results) "jira_open_high_priority" = none ∧
      dget (extract_quick_facts results) "jira_resolved_24h" = none ∧
      dget (extract_quick_facts results) "jira_created_7d" = none) ∧
    ((getSrc results "jira").status ∈
        [some "healthy", some "warning", some "critical"] →
      dget (extract_quick_facts results) "jira_open_high_priority" =
        some (sumGet (getSrc results "jira") "open_high_priority") ∧
      dget (extract_quick_facts results) "jira_resolved_24h" =
        some (sumGet (getSrc results "jira") "resolved_last_24h") ∧
      dget (extract_quick_facts results) "jira_created_7d" =
        some (sumGet (getSrc results "jira") "created_last_7d")) ∧
    ((getSrc results "shell").status = some "error" →
      dget (extract_quick_facts results) "shell_checks_critical" = none ∧
      dget (extract_quick_facts results) "shell_checks_warnings" = none) ∧
    ((getSrc results "shell").status ∈
        [some "healthy", some "warning", some "critical"] →
      dget (extract_quick_facts results) "shell_checks_critical" =
        some (sumGet (getSrc results "shell") "critical") ∧
      dget (extract_quick_facts results) "shell_checks_warnings" =
        some (sumGet (getSrc results "shell") "warnings")) := by
  refine ⟨fun h => ?_, fun h => ?_, fun h => ?_, fun h => ?_,
          fun h => ?_, fun h => ?_, fun h => ?_, fun h => ?_⟩
  · exact ⟨by rw [dget_qf_ml_failed]; simp [h],
           by rw [dget_qf_ml_running]; simp [h],
           by rw [dget_qf_ml_completed]; simp [h]⟩
  · have hne : (getSrc results "azure_ml").status ≠ some "error" := by
      intro he; rw [he] at h; simp at h
    exact ⟨by rw [dget_qf_ml_failed, if_pos hne],
           by rw [dget_qf_ml_running, if_pos hne],
           by rw [dget_qf_ml_completed, if_pos hne]⟩
  · exact ⟨by rw [dget_qf_mon_critical]; simp [h],
           by rw [dget_qf_mon_warnings]; simp [h]⟩
  · have hne : (getSrc results "azure_monitor").status ≠ some "error" := by
      intro he; rw [he] at h; simp at h
    exact ⟨by rw [dget_qf_mon_critical, if_pos hne],
           by rw [dget_qf_mon_warnings, if_pos hne]⟩
  · exact ⟨by rw [dget_qf_jira_open]; simp [h],
           by rw [dget_qf_jira_resolved]; simp [h],
           by rw [dget_qf_jira_created]; simp [h]⟩
  · have hne : (getSrc results "jira").status ≠ some "error" := by
      intro he; rw [he] at h; simp at h
    exact ⟨by rw [dget_qf_jira_open, if_pos hne],
           by rw [dget_qf_jira_resolved, if_pos hne],
           by rw [dget_qf_jira_created, if_pos hne]⟩
  · exact ⟨by rw [dget_qf_shell_critical]; simp [h],
           by rw [dget_qf_shell_warnings]; simp [h]⟩
  · have hne : (getSrc results "shell").status ≠ some "error" := by
      intro he; rw [he] at h; simp at h
    exact ⟨by rw [dget_qf_shell_critical, if_pos hne],
           by rw [dget_qf_shell_warnings, if_pos hne]⟩

/-- Witness for C7: an erroring azure_ml source is omitted while a degraded
(warning) monitor source still contributes its counters. -/
theorem quick_facts_error_omission_witness :
    dget (extract_quick_facts
      [("azure_ml", { status := some "error", error := some "auth failed" }),
       ("azure_monitor", { status := some "warning",
                           summary := some [("critical", 0), ("warnings", 2)] })])
        "ml_jobs_failed" = none ∧
    dget (extract_quick_facts
      [("azure_ml", { status := some "error", error := some "auth failed" }),
       ("azure_monitor", { status := some "warning",
                           summary := some [("critical", 0), ("warnings", 2)] })])
        "monitor_critical_alerts" =
      some (sumGet (getSrc
        [("azure_ml", { status := some "error", error := some "auth failed" }),
         ("azure_monitor", { status := some "warning",
                             summary := some [("critical", 0), ("warnings", 2)] })]
        "azure_monitor") "critical") := by
  have h := quick_facts_error_omission
    [("azure_ml", { status := some "error", error := some "auth failed" }),
     ("azure_monitor", { status := some "warning",
                         summary := some [("critical", 0), ("warnings", 2)] })]
  exact ⟨(h.1 (by rfl)).1, (h.2.2.2.1 (by simp [getSrc, dget])).1⟩

/-- Witness for C4: one raising and one succeeding collector. -/
theorem collect_all_completeness_isolation_witness :
    ((collect_all "T" [("a", Except.error "boom"),
        ("b", Except.ok { status := some "healthy" })]).sources.map Prod.fst =
      [("a", Except.error "boom"),
       ("b", Except.ok ({ status := some "healthy" } : SrcResult))].map
        Prod.fst) ∧
    ((("a", { source := some "a", status := some "error",
              error := some "boom",
              collected_at := some "T" }) : String × SrcResult) ∈
      (collect_all "T" [("a", Except.error "boom"),
        ("b", Except.ok { status := some "healthy" })]).sources) ∧
    ((("b", { status := some "healthy" }) : String × SrcResult) ∈
      (collect_all "T" [("a", Except.error "boom"),
        ("b", Except.ok { status := some "healthy" })]).sources) := by
  have h := collect_all_completeness_isolation "T"
    [("a", Except.error "boom"), ("b", Except.ok { status := some "healthy" })]
  exact ⟨h.1, h.2.1 "a" "boom" (by simp), h.2.2 "b" _ (by simp)⟩

/-! ## The analysis engine (`src/agent.py`)

JSON values for the narrative service's parsed responses. -/

inductive JVal where
  | jnull
  | jbool (b : Bool)
  | jnum (n : Int)
  | jstr (s : String)
  | jarr (xs : List JVal)
  | jobj (fields : List (String × JVal))

/-- Python `d[k] = v` on a string-keyed dict: update the existing key in
place, else append the new key at the end. -/
def setEntry {α : Type} (l : List (String × α)) (k : String) (v : α) :
    List (String × α) :=
  if (dget l k).isSome then l.map (fun p => if p.1 = k then (k, v) else p)
  else l ++ [(k, v)]

/-- `_trim_snapshot` (`agent.py` lines 135–144) at the level of dict values:
the deep copy means the caller's snapshot is unaffected (the heap-level
non-mutation statement is proved separately below), and the copy's
`sources["azure_ml"]["completed_jobs"]` is replaced by its first 5 items.
When the snapshot has no `azure_ml` source, `s.get(...).get(...)` yields a
fresh dict, so the write is lost and the result equals the input. -/
def trim_snapshot (s : AggSnapshot) : AggSnapshot :=
  match dget s.sources "azure_ml" with
  | none => s
  | some ml =>
      { s with
        sources :=
          setEntry s.sources "azure_ml"
            { ml with
              completed_jobs := some ((ml.completed_jobs.getD []).take 5) } }

/-- `facts.get(k, "?")` interpolated into the prompt header. -/
def factStr (facts : List (String × Int)) (k : String) : String :=
  match dget facts k with
  | some n => toString n
  | none => "?"

/-- A JSON string literal.  `json.dumps` escaping is abstracted (no claim
depends on the serialized text, only on the serialization being total). -/
def strQ (s : String) : String := "\"" ++ s ++ "\""

/-- Serialize one job/alert/ticket/check entry dict. -/
def serJobEntry (e : JobEntry) : String :=
  "\x7b" ++ String.intercalate ", "
    (e.map fun p => strQ p.1 ++ ": " ++ strQ p.2) ++ "\x7d"

def serJobList (xs : List JobEntry) : String :=
  "[" ++ String.intercalate ", " (xs.map serJobEntry) ++ "]"

def serSummary (s : List (String × Int)) : String :=
  "\x7b" ++ String.intercalate ", "
    (s.map fun p => strQ p.1 ++ ": " ++ toString p.2) ++ "\x7d"

/-- Serialize a collector result dict: only the keys that are present are
emitted, mirroring `json.dumps` on the Python dict. -/
def serSrcResult (r : SrcResult) : String :=
  "\x7b" ++ String.intercalate ", "
    ((r.source.map fun v => strQ "source" ++ ": " ++ strQ v).toList
     ++ (r.status.map fun v => strQ "status" ++ ": " ++ strQ v).toList
     ++ (r.error.map fun v => strQ "error" ++ ": " ++ strQ v).toList
     ++ (r.collected_at.map fun v =>
          strQ "collected_at" ++ ": " ++ strQ v).toList
     ++ (r.summary.map fun v => strQ "summary" ++ ": " ++ serSummary v).toList
     ++ (r.failed_jobs.map fun v =>
          strQ "failed_jobs" ++ ": " ++ serJobList v).toList
     ++ (r.running_jobs.map fun v =>
          strQ "running_jobs" ++ ": " ++ serJobList v).toList
     ++ (r.completed_jobs.map fun v =>
          strQ "completed_jobs" ++ ": " ++ serJobList v).toList
     ++ (r.compute.map fun v => strQ "compute" ++ ": " ++ serJobList v).toList
     ++ (r.critical_alerts.map fun v =>
          strQ "critical_alerts" ++ ": " ++ serJobList v).toList
     ++ (r.warning_alerts.map fun v =>
          strQ "warning_alerts" ++ ": " ++ serJobList v).toList
     ++ (r.resource_health.map fun v =>
          strQ "resource_health" ++ ": " ++ serJobList v).toList
     ++ (r.open_tickets.map fun v =>
          strQ "open_tickets" ++ ": " ++ serJobList v).toList
     ++ (r.resolved_last_24h.map fun v =>
          strQ "resolved_last_24h" ++ ": " ++ serJobList v).toList
     ++ (r.checks.map fun v => strQ "checks" ++ ": " ++ serJobList v).toList
     ++ (r.lookback_hours.map fun v =>
          strQ "lookback_hours" ++ ": " ++ toString v).toList) ++ "\x7d"

/-- `json.dumps(lean_snapshot, indent=2, default=str)`: total serialization of
the (trimmed) snapshot; indentation/escaping details abstracted. -/
def serSnapshot (s : AggSnapshot) : String :=
  "\x7b" ++ strQ "collected_at" ++ ": " ++ strQ s.collected_at ++ ", "
      ++ strQ "overall_status" ++ ": " ++ strQ s.overall_status ++ ", "
      ++ strQ "sources" ++ ": \x7b"
      ++ String.intercalate ", "
          (s.sources.map fun p => strQ p.1 ++ ": " ++ serSrcResult p.2)
      ++ "\x7d, " ++ strQ "quick_facts" ++ ": " ++ serSummary s.quick_facts
      ++ "\x7d"

/-- `_build_prompt` (`agent.py` lines 107–132): quick-facts header (with `?`
for missing facts) followed by the serialized trimmed snapshot. -/
def build_prompt (s : AggSnapshot) : String :=
  let facts := s.quick_facts
  let header :=
    "PLATFORM HEALTH SNAPSHOT\nCollected: " ++ s.collected_at
    ++ "\nOverall Status: " ++ s.overall_status.toUpper
    ++ "\n\nQUICK FACTS:\n- Azure ML: " ++ factStr facts "ml_jobs_failed"
    ++ " failed jobs, " ++ factStr facts "ml_jobs_running"
    ++ " running, " ++ factStr facts "ml_jobs_completed"
    ++ " completed\n- Azure Monitor: "
    ++ factStr facts "monitor_critical_alerts"
    ++ " critical alerts, " ++ factStr facts "monitor_warnings"
    ++ " warnings\n- Jira: " ++ factStr facts "jira_open_high_priority"
    ++ " open high-priority tickets, " ++ factStr facts "jira_resolved_24h"
    ++ " resolved last 24h\n- Shell Checks: "
    ++ factStr facts "shell_checks_critical"
    ++ " critical, " ++ factStr facts "shell_checks_warnings"
    ++ " warnings\n\nFULL DATA:"
  header ++ "\n\n" ++ serSnapshot (trim_snapshot s)

/-- Behaviour of the external narrative service plus the stdlib JSON parser,
given the prompt: the `client.messages.create` call (or response-content
access) raising an exception with the given message; or returned text whose
`json.loads` (after fence stripping) raises `JSONDecodeError` with the given
message; or a successful parse producing the given JSON value. -/
inductive SvcOutcome where
  | callFailure (msg : String)
  | response (parsed : Except String JVal)

/-- An exception inside the `try` block of `analyse`: a `json.JSONDecodeError`
(caught by the first handler) or any other exception (second handler). -/
inductive PyExn where
  | jsonDecode (msg : String)
  | other (msg : String)

/-- `report["generated_at"] = ...; report["snapshot_collected_at"] = ...`
(`agent.py` lines 93–94). -/
def stampReport (snap : AggSnapshot) (now : String)
    (fields : List (String × JVal)) : List (String × JVal) :=
  setEntry (setEntry fields "generated_at" (JVal.jstr now))
    "snapshot_collected_at" (JVal.jstr snap.collected_at)

/-- `str()` of the `TypeError` CPython raises for `report["generated_at"] = …`
when `json.loads` produced a non-dict; exact CPython wording abstracted. -/
def typeErrorMsg : String :=
  "TypeError: parsed JSON value does not support item assignment"

/-- `str()` of the `AttributeError` raised by
`report.get("overall_status", "unknown").upper()` (`agent.py` line 96) when the
parsed dict carries a non-string `overall_status`; exact wording abstracted. -/
def attrErrorMsg : String :=
  "AttributeError: overall_status value has no attribute upper"

/-- Body of the `try` block of `analyse` (`agent.py` lines 75–97): every
statement that can raise is reflected in the `Except` result. -/
def tryBody (snap : AggSnapshot) (outcome : SvcOutcome) (now : String) :
    Except PyExn (List (String × JVal)) :=
  match outcome with
  | .callFailure msg => .error (.other msg)
  | .response (.error e) => .error (.jsonDecode e)
  | .response (.ok (.jobj fields)) =>
      let report := stampReport snap now fields
      match (dget report "overall_status").getD (JVal.jstr "unknown") with
      | .jstr _ => .ok report
      | _ => .error (.other attrErrorMsg)
  | .response (.ok _) => .error (.other typeErrorMsg)

/-- `snapshot.get("sources", {}).get(src, {}).get("status", "unknown")`. -/
def statusOrUnknown (snap : AggSnapshot) (src : String) : String :=
  match dget snap.sources src with
  | some r => r.status.getD "unknown"
  | none => "unknown"

/-- `_fallback_report` (`agent.py` lines 147–168). -/
def fallback_report (snap : AggSnapshot) (error : String) (now : String) :
    List (String × JVal) :=
  [("overall_status", .jstr snap.overall_status),
   ("headline", .jstr "Health report generation failed — manual review required"),
   ("narrative", .jstr ("The agent encountered an error during analysis: "
      ++ error
      ++ ". Raw data has been collected and is available in the JSON log.")),
   ("anomalies", .jarr []),
   ("recommended_actions", .jarr [.jobj
      [("priority", .jnum 1),
       ("action", .jstr "Review raw collected data in the JSON log file"),
       ("rationale", .jstr "LLM analysis failed — raw data still available"),
       ("owner", .jstr "Platform Engineer")]]),
   ("source_statuses", .jobj
      [("azure_ml", .jstr (statusOrUnknown snap "azure_ml")),
       ("azure_monitor", .jstr (statusOrUnknown snap "azure_monitor")),
       ("jira", .jstr (statusOrUnknown snap "jira")),
       ("shell", .jstr (statusOrUnknown snap "shell"))]),
   ("generated_at", .jstr now),
   ("error", .jstr error)]

/-- `analyse` (`agent.py` lines 67–104): `_build_prompt` runs before the
`try` block; the service behaviour is a function of the prompt; the two
`except` clauses route to `_fallback_report`. -/
def analyse (snap : AggSnapshot) (svc : String → SvcOutcome) (now : String) :
    List (String × JVal) :=
  let prompt := build_prompt snap
  match tryBody snap (svc prompt) now with
  | .ok report => report
  | .error (.jsonDecode e) =>
      fallback_report snap ("JSON parse error: " ++ e) now
  | .error (.other m) => fallback_report snap m now

/-- Modelled from the spec: the full `Report` schema of §3/§4.5 step 4 — the
enumerated report fields, `anomalies[*].severity` in the 3-value enum,
`recommendedActions[*].priority` a positive integer, and `sourceStatuses`
mapping every known source id to a 4-status enum value.  The code has no
counterpart of this check; it exists here to compare `analyse`'s behaviour
against the spec's claimed validation. -/
def reportSchemaOK_spec (r : List (String × JVal)) : Bool :=
  (match dget r "overall_status" with
   | some (.jstr s) => knownStatuses.contains s
   | _ => false)
  && (match dget r "headline" with | some (.jstr _) => true | _ => false)
  && (match dget r "narrative" with | some (.jstr _) => true | _ => false)
  && (match dget r "anomalies" with
      | some (.jarr xs) => xs.all fun a =>
          match a with
          | .jobj f =>
              (match dget f "severity" with
               | some (.jstr s) => ["critical", "warning", "info"].contains s
               | _ => false)
              && (dget f "source").isSome && (dget f "title").isSome
              && (dget f "detail").isSome
          | _ => false
      | _ => false)
  && (match dget r "recommended_actions" with
      | some (.jarr xs) => xs.all fun a =>
          match a with
          | .jobj f =>
              (match dget f "priority" with
               | some (.jnum n) => decide (0 < n)
               | _ => false)
              && (dget f "action").isSome && (dget f "rationale").isSome
              && (dget f "owner").isSome
          | _ => false
      | _ => false)
  && (match dget r "source_statuses" with
      | some (.jobj m) =>
          ["azure_ml", "azure_monitor", "jira", "shell"].all fun src =>
            match dget m src with
            | some (.jstr s) => knownStatuses.contains s
            | _ => false
      | _ => false)
  && (match dget r "generated_at" with | some (.jstr _) => true | _ => false)

/-! ### dict-update lemmas -/

theorem dget_append_some {α : Type} {l : List (String × α)} {k : String}
    {v : α} (m : List (String × α)) (h : dget l k = some v) :
    dget (l ++ m) k = some v := by
  induction l with
  | nil => simp [dget] at h
  | cons p rest ih =>
      by_cases hp : p.1 = k
      · simp [dget, hp] at h ⊢; exact h
      · simp [dget, hp] at h ⊢; exact ih h

theorem dget_append_right {α : Type} {l : List (String × α)} {k : String}
    (m : List (String × α)) (h : dget l k = none) :
    dget (l ++ m) k = dget m k := by
  induction l with
  | nil => rfl
  | cons p rest ih =>
      by_cases hp : p.1 = k
      · simp [dget, hp] at h
      · simp [dget, hp] at h ⊢; exact ih h

theorem dget_map_update {α : Type} (l : List (String × α)) (k : String)
    (v : α) (h : (dget l k).isSome) :
    dget (l.map fun p => if p.1 = k then (k, v) else p) k = some v := by
  induction l with
  | nil => simp [dget] at h
  | cons p rest ih =>
      by_cases hp : p.1 = k
      · simp [dget, hp]
      · simp [dget, hp] at h ⊢; exact ih h

theorem dget_map_update_other {α : Type} (l : List (String × α))
    (k k' : String) (v : α) (h : k' ≠ k) :
    dget (l.map fun p => if p.1 = k then (k, v) else p) k' = dget l k' := by
  induction l with
  | nil => rfl
  | cons p rest ih =>
      by_cases hp : p.1 = k
      · have hk : ¬(k = k') := fun he => h he.symm
        simp [dget, hp, hk]
        exact ih
      · by_cases hp' : p.1 = k'
        · simp [dget, hp, hp', h]
        · simp [dget, hp, hp']
          exact ih

theorem dget_setEntry_self {α : Type} (l : List (String × α)) (k : String)
    (v : α) : dget (setEntry l k v) k = some v := by
  unfold setEntry
  split
  · next h => exact dget_map_update l k v h
  · next h =>
      have hn : dget l k = none := by
        cases hd : dget l k with
        | none => rfl
        | some w => rw [hd] at h; simp at h
      rw [dget_append_right _ hn]
      simp [dget]

theorem dget_setEntry_other {α : Type} (l : List (String × α))
    (k k' : String) (v : α) (h : k' ≠ k) :
    dget (setEntry l k v) k' = dget l k' := by
  unfold setEntry
  split
  · exact dget_map_update_other l k k' v h
  · cases hd : dget l k' with
    | none =>
        rw [dget_append_right _ hd]
        have hk : ¬(k = k') := fun he => h he.symm
        simp [dget, hk, hd]
    | some w => exact dget_append_some _ hd

/-! ### Claim theorems about the analysis engine -/

/-- C2: `analyse` never raises past its own boundary: for every snapshot and
every service behaviour (call failure, malformed response, or parsed value of
any shape) it returns a report value — the stamped parsed object on success,
or a fallback report.  Prompt building and payload shaping
(`build_prompt`, `trim_snapshot`) are total functions of the snapshot, and
every raise point inside the `try` block is routed to `_fallback_report`. -/
theorem analyse_never_raises (snap : AggSnapshot) (svc : String → SvcOutcome)
    (now : String) :
    (∃ report, tryBody snap (svc (build_prompt snap)) now = .ok report ∧
        analyse snap svc now = report) ∨
    (∃ msg, analyse snap svc now = fallback_report snap msg now) := by
  cases htb : tryBody snap (svc (build_prompt snap)) now with
  | ok r =>
      refine Or.inl ⟨r, rfl, ?_⟩
      unfold analyse
      simp [htb]
  | error e =>
      cases e with
      | jsonDecode m =>
          refine Or.inr ⟨"JSON parse error: " ++ m, ?_⟩
          unfold analyse
          simp [htb]
      | other m =>
          refine Or.inr ⟨m, ?_⟩
          unfold analyse
          simp [htb]

/-- The azure_ml entry of the concrete example snapshot (6 completed jobs,
1 failed job). -/
def sampleML : SrcResult :=
  { source := some "azure_ml", status := some "warning"
    summary := some [("failed", 1), ("running", 2), ("completed", 3)]
    failed_jobs := some [[("name", "f1")]]
    completed_jobs := some [[("name", "j1")], [("name", "j2")],
                            [("name", "j3")], [("name", "j4")],
                            [("name", "j5")], [("name", "j6")]] }

/-- A concrete example snapshot used by the closed witnesses. -/
def sampleSnap : AggSnapshot :=
  { collected_at := "2026-01-01T00:00:00+00:00"
    overall_status := "warning"
    sources := [("azure_ml", sampleML),
                ("azure_monitor", { status := some "healthy" })]
    quick_facts := [("ml_jobs_failed", 1)] }

/-- The C6 fallback contract for one produced report `r` and failure cause
`err`: overall status copied from the snapshot, exactly one priority-1
recommended action, source statuses read off the snapshot (defaulting to
`"unknown"`), and a non-empty error field carrying the cause. -/
def fallbackProps (snap : AggSnapshot) (r : List (String × JVal))
    (err : String) : Prop :=
  dget r "overall_status" = some (.jstr snap.overall_status) ∧
  dget r "recommended_actions" = some (.jarr [.jobj
    [("priority", .jnum 1),
     ("action", .jstr "Review raw collected data in the JSON log file"),
     ("rationale", .jstr "LLM analysis failed — raw data still available"),
     ("owner", .jstr "Platform Engineer")]]) ∧
  dget r "source_statuses" = some (.jobj
    [("azure_ml", .jstr (statusOrUnknown snap "azure_ml")),
     ("azure_monitor", .jstr (statusOrUnknown snap "azure_monitor")),
     ("jira", .jstr (statusOrUnknown snap "jira")),
     ("shell", .jstr (statusOrUnknown snap "shell"))]) ∧
  dget r "error" = some (.jstr err) ∧
  err ≠ ""

/-- C6: whenever the external call or parsing fails, the fallback report has
`overall_status` equal to the snapshot's, exactly one priority-1 recommended
action, `source_statuses` read off each configured source's recorded status
(`"unknown"` when absent), and a non-empty `error` field carrying the failure
cause. -/
theorem fallback_report_contract (snap : AggSnapshot) (now msg : String)
    (hmsg : msg ≠ "") :
    fallbackProps snap (analyse snap (fun _ => .callFailure msg) now) msg ∧
    fallbackProps snap (analyse snap (fun _ => .response (.error msg)) now)
      ("JSON parse error: " ++ msg) := by
  constructor
  · exact ⟨rfl, rfl, rfl, rfl, hmsg⟩
  · refine ⟨rfl, rfl, rfl, rfl, ?_⟩
    intro h
    have h2 : ("JSON parse error: " ++ msg).data = ("" : String).data :=
      congrArg String.data h
    rw [String.data_append] at h2
    exact absurd (List.append_eq_nil.mp h2).1 (by decide)

/-- Witness for C6 on the concrete sample snapshot. -/
theorem fallback_report_contract_witness :
    fallbackProps sampleSnap
      (analyse sampleSnap (fun _ => .callFailure "service unavailable") "T")
      "service unavailable" ∧
    fallbackProps sampleSnap
      (analyse sampleSnap (fun _ => .response (.error "bad json")) "T")
      ("JSON parse error: " ++ "bad json") :=
  ⟨(fallback_report_contract sampleSnap "T" "service unavailable"
      (by decide)).1,
   (fallback_report_contract sampleSnap "T" "bad json" (by decide)).2⟩

/-- A parsed service response violating the Report schema (unknown
`overall_status`, every other required field missing). -/
def badResponse : JVal := .jobj [("overall_status", .jstr "bogus")]

/-- C1 counterexample: `analyse` performs no schema validation — a parsed
object violating the Report schema is returned as the Report (not routed to
fallback: no `error` field is present, and the bogus `overall_status` is kept
verbatim), refuting the claim that every returned Report satisfies the full
schema. -/
theorem analyse_no_validation_counterexample :
    reportSchemaOK_spec
      (analyse sampleSnap (fun _ => .response (.ok badResponse)) "T") = false ∧
    dget (analyse sampleSnap (fun _ => .response (.ok badResponse)) "T")
      "error" = none ∧
    dget (analyse sampleSnap (fun _ => .response (.ok badResponse)) "T")
      "overall_status" = some (.jstr "bogus") :=
  ⟨rfl, rfl, rfl⟩

/-- C1 amended: any JSON parse failure goes directly to the fallback path, but
no schema validation is performed on a successfully parsed object: whenever
the stamped object's `overall_status` entry is a string (or absent), the
parsed object is returned as the Report with only `generated_at` and
`snapshot_collected_at` stamped, schema-conforming or not. -/
theorem analyse_no_schema_validation (snap : AggSnapshot) (now msg : String)
    (fields : List (String × JVal)) :
    analyse snap (fun _ => .response (.error msg)) now =
      fallback_report snap ("JSON parse error: " ++ msg) now ∧
    (∀ s, (dget (stampReport snap now fields) "overall_status").getD
        (JVal.jstr "unknown") = JVal.jstr s →
      analyse snap (fun _ => .response (.ok (.jobj fields))) now =
        stampReport snap now fields) := by
  constructor
  · rfl
  · intro s hs
    unfold analyse tryBody
    simp [hs]

/-- Witness for C1's amended theorem: a schema-violating one-field object is
returned with stamps; a parse failure falls back. -/
theorem analyse_no_schema_validation_witness :
    analyse sampleSnap (fun _ => .response (.error "oops")) "T" =
      fallback_report sampleSnap ("JSON parse error: " ++ "oops") "T" ∧
    analyse sampleSnap
      (fun _ => .response (.ok (.jobj [("overall_status", .jstr "critical")])))
      "T" = stampReport sampleSnap "T" [("overall_status", .jstr "critical")] :=
  ⟨(analyse_no_schema_validation sampleSnap "T" "oops" []).1,
   (analyse_no_schema_validation sampleSnap "T" "oops"
      [("overall_status", .jstr "critical")]).2 "critical" rfl⟩

/-- C9: the shaped snapshot's azure_ml completed-jobs list has length at most
5 (the fixed cap), while the failure/anomaly-relevant lists of every source —
failed jobs, alerts, tickets, checks — are preserved exactly. -/
theorem trim_snapshot_bounds (s : AggSnapshot) :
    (∀ ml, dget (trim_snapshot s).sources "azure_ml" = some ml →
      (ml.completed_jobs.getD []).length ≤ 5) ∧
    (∀ n r, dget s.sources n = some r →
      ∃ r', dget (trim_snapshot s).sources n = some r' ∧
        r'.failed_jobs = r.failed_jobs ∧
        r'.running_jobs = r.running_jobs ∧
        r'.critical_alerts = r.critical_alerts ∧
        r'.warning_alerts = r.warning_alerts ∧
        r'.open_tickets = r.open_tickets ∧
        r'.checks = r.checks) := by
  constructor
  · intro ml hml
    cases hd : dget s.sources "azure_ml" with
    | none =>
        have ht : trim_snapshot s = s := by
          unfold trim_snapshot; rw [hd]
        rw [ht, hd] at hml
        cases hml
    | some ml0 =>
        have ht : (trim_snapshot s).sources =
            setEntry s.sources "azure_ml"
              { ml0 with
                completed_jobs :=
                  some ((ml0.completed_jobs.getD []).take 5) } := by
          unfold trim_snapshot; rw [hd]
        rw [ht, dget_setEntry_self] at hml
        cases hml
        simp
  · intro n r hr
    cases hd : dget s.sources "azure_ml" with
    | none =>
        refine ⟨r, ?_, rfl, rfl, rfl, rfl, rfl, rfl⟩
        unfold trim_snapshot
        rw [hd]
        exact hr
    | some ml0 =>
        have ht : (trim_snapshot s).sources =
            setEntry s.sources "azure_ml"
              { ml0 with
                completed_jobs :=
                  some ((ml0.completed_jobs.getD []).take 5) } := by
          unfold trim_snapshot; rw [hd]
        by_cases hn : n = "azure_ml"
        · subst hn
          rw [hd] at hr
          cases hr
          refine ⟨{ r with
                    completed_jobs :=
                      some ((r.completed_jobs.getD []).take 5) },
              ?_, rfl, rfl, rfl, rfl, rfl, rfl⟩
          rw [ht, dget_setEntry_self]
        · refine ⟨r, ?_, rfl, rfl, rfl, rfl, rfl, rfl⟩
          rw [ht, dget_setEntry_other _ _ _ _ hn]
          exact hr

/-- Witness for C9 on the sample snapshot (6 completed jobs trimmed to 5,
failed jobs untouched). -/
theorem trim_snapshot_bounds_witness :
    (((dget (trim_snapshot sampleSnap).sources "azure_ml").getD
        {}).completed_jobs.getD []).length ≤ 5 ∧
    (∃ r', dget (trim_snapshot sampleSnap).sources "azure_ml" = some r' ∧
      r'.failed_jobs = sampleML.failed_jobs ∧
      r'.running_jobs = sampleML.running_jobs ∧
      r'.critical_alerts = sampleML.critical_alerts ∧
      r'.warning_alerts = sampleML.warning_alerts ∧
      r'.open_tickets = sampleML.open_tickets ∧
      r'.checks = sampleML.checks) :=
  ⟨(trim_snapshot_bounds sampleSnap).1 _ rfl,
   (trim_snapshot_bounds sampleSnap).2 "azure_ml" sampleML rfl⟩

/-! ## Heap-level model of `_trim_snapshot` (claim C8)

The value-level `trim_snapshot` above cannot express mutation, so the
deep-copy semantics of `agent.py` lines 137–143 is modelled on an explicit
heap: mutable Python dicts live at numbered addresses, `copy.deepcopy`
allocates fresh addresses, and `ml["completed_jobs"] = …` is an in-place
update of one address.  Non-mutation of the original snapshot is then a real
statement: the deep value readable from the original address is unchanged by
the run. -/

/-- A Python value: immutable atoms, lists (replaced wholesale, never mutated
in this code, so kept structural), and references to heap-allocated dicts. -/
inductive HVal where
  | hstr (s : String)
  | hint (n : Int)
  | hnull
  | hlist (xs : List HVal)
  | href (a : Nat)

/-- A dict object: insertion-ordered string-keyed fields. -/
abbrev HDict := List (String × HVal)

/-- The heap: dict objects at numbered addresses, plus the next fresh
address. -/
structure Heap where
  mem : List (Nat × HDict)
  next : Nat

/-- dict lookup by address (same shape as `dget`, with `Nat` keys). -/
def aget {α : Type} : List (Nat × α) → Nat → Option α
  | [], _ => none
  | p :: rest, a => if p.1 = a then some p.2 else aget rest a

/-- Allocate a fresh dict object, returning the new heap and its address. -/
def alloc (h : Heap) (d : HDict) : Heap × Nat :=
  ({ mem := (h.next, d) :: h.mem, next := h.next + 1 }, h.next)

/-- In-place replacement of the dict object stored at address `a`. -/
def updateH (h : Heap) (a : Nat) (d : HDict) : Heap :=
  { mem := h.mem.map fun p => if p.1 = a then (a, d) else p, next := h.next }

/-- The pure (heap-free) value tree read back from a heap value. -/
inductive PVal where
  | pstr (s : String)
  | pint (n : Int)
  | pnull
  | plist (xs : List PVal)
  | pdict (fields : List (String × PVal))

def readListWith (c : HVal → Option PVal) : List HVal → Option (List PVal)
  | [] => some []
  | x :: xs =>
      match c x with
      | none => none
      | some v =>
          match readListWith c xs with
          | none => none
          | some vs => some (v :: vs)

def readDictWith (c : HVal → Option PVal) :
    HDict → Option (List (String × PVal))
  | [] => some []
  | (k, x) :: d =>
      match c x with
      | none => none
      | some v =>
          match readDictWith c d with
          | none => none
          | some vs => some ((k, v) :: vs)

/-- Deep read of a heap value (fuel-bounded; `none` on exhausted fuel or a
dangling reference). -/
def readVal : Nat → Heap → HVal → Option PVal
  | 0, _, _ => none
  | f + 1, h, .href a =>
      match aget h.mem a with
      | none => none
      | some d =>
          match readDictWith (readVal f h) d with
          | none => none
          | some vs => some (.pdict vs)
  | f + 1, h, .hlist xs =>
      match readListWith (readVal f h) xs with
      | none => none
      | some vs => some (.plist vs)
  | _ + 1, _, .hstr s => some (.pstr s)
  | _ + 1, _, .hint n => some (.pint n)
  | _ + 1, _, .hnull => some .pnull

def copyListWith (c : Heap → HVal → Option (Heap × HVal)) :
    Heap → List HVal → Option (Heap × List HVal)
  | h, [] => some (h, [])
  | h, x :: xs =>
      match c h x with
      | none => none
      | some (h₁, x') =>
          match copyListWith c h₁ xs with
          | none => none
          | some (h₂, xs') => some (h₂, x' :: xs')

def copyDictWith (c : Heap → HVal → Option (Heap × HVal)) :
    Heap → HDict → Option (Heap × HDict)
  | h, [] => some (h, [])
  | h, (k, x) :: d =>
      match c h x with
      | none => none
      | some (h₁, x') =>
          match copyDictWith c h₁ d with
          | none => none
          | some (h₂, d') => some (h₂, (k, x') :: d')

/-- `copy.deepcopy`: immutable atoms are returned as-is, lists are rebuilt
from deep-copied elements, and each referenced dict is copied into a fresh
address (fuel-bounded; the input data is tree-shaped, so the memo table of
CPython's deepcopy is not modelled). -/
def copyVal : Nat → Heap → HVal → Option (Heap × HVal)
  | 0, _, _ => none
  | f + 1, h, .href a =>
      match aget h.mem a with
      | none => none
      | some d =>
          match copyDictWith (copyVal f) h d with
          | none => none
          | some (h₁, d') =>
              let p := alloc h₁ d'
              some (p.1, .href p.2)
  | f + 1, h, .hlist xs =>
      match copyListWith (copyVal f) h xs with
      | none => none
      | some (h₁, xs') => some (h₁, .hlist xs')
  | _ + 1, h, v => some (h, v)

/-- `ml.get("completed_jobs", [])[:5]` — slicing succeeds on lists and
strings, raises `TypeError` (→ `none`) on anything else. -/
def sliceCompleted (mlDict : HDict) : Option HVal :=
  match dget mlDict "completed_jobs" with
  | some (.hlist xs) => some (.hlist (xs.take 5))
  | some (.hstr s) => some (.hstr (s.take 5))
  | some _ => none
  | none => some (.hlist [])

/-- The final statement `ml["completed_jobs"] = ml.get("completed_jobs", [])[:5]`
once the address of `ml` is known: mutates exactly that address. -/
def trimAtMl (h : Heap) (sAddr mlAddr : Nat) : Option (Heap × Nat) :=
  match aget h.mem mlAddr with
  | none => none
  | some mlDict =>
      match sliceCompleted mlDict with
      | none => none
      | some newList =>
          some (updateH h mlAddr (setEntry mlDict "completed_jobs" newList),
                sAddr)

/-- `.get("azure_ml", {})` on the sources dict: a present dict value gives its
address, a present non-dict raises on the subsequent attribute access
(→ `none`), a missing key allocates a fresh empty dict (whose mutation is then
lost). -/
def trimAtSrcs (h : Heap) (sAddr srcsAddr : Nat) : Option (Heap × Nat) :=
  match aget h.mem srcsAddr with
  | none => none
  | some srcsDict =>
      match dget srcsDict "azure_ml" with
      | some (.href mlAddr) => trimAtMl h sAddr mlAddr
      | some _ => none
      | none =>
          let p := alloc h []
          trimAtMl p.1 sAddr p.2

/-- `s.get("sources", {})` on the deep copy at `sAddr`. -/
def trimAtCopy (h : Heap) (sAddr : Nat) : Option (Heap × Nat) :=
  match aget h.mem sAddr with
  | none => none
  | some sDict =>
      match dget sDict "sources" with
      | some (.href srcsAddr) => trimAtSrcs h sAddr srcsAddr
      | some _ => none
      | none =>
          let p := alloc h []
          trimAtSrcs p.1 sAddr p.2

/-- `_trim_snapshot` as a heap program: deep-copy the snapshot dict, then
navigate and mutate only within the copy; returns the final heap and the
copy's address. -/
def trimProg (fuel : Nat) (h : Heap) (snap : Nat) : Option (Heap × Nat) :=
  match copyVal fuel h (.href snap) with
  | none => none
  | some (h₁, .href sAddr) => trimAtCopy h₁ sAddr
  | some _ => none

/-- Every reference occurring (hereditarily) in a heap value satisfies `P`. -/
inductive ValRefs (P : Nat → Prop) : HVal → Prop where
  | hstr (s : String) : ValRefs P (.hstr s)
  | hint (n : Int) : ValRefs P (.hint n)
  | hnull : ValRefs P .hnull
  | href {a : Nat} : P a → ValRefs P (.href a)
  | hlist {xs : List HVal} : (∀ x ∈ xs, ValRefs P x) → ValRefs P (.hlist xs)

/-- Every reference in a dict's values satisfies `P`. -/
def DictRefs (P : Nat → Prop) (d : HDict) : Prop :=
  ∀ p ∈ d, ValRefs P p.2

/-- Heap well-formedness: every allocated address and every stored reference
lies below `next`. -/
def HeapWF (h : Heap) : Prop :=
  ∀ p ∈ h.mem, p.1 < h.next ∧ DictRefs (fun b => b < h.next) p.2

/-- Heap evolution during the trim program, relative to the base bound `n`:
addresses below `n` keep their bindings, `next` grows, and every binding not
already present is at a fresh address whose dict refers only to fresh
addresses. -/
def CP (n : Nat) (h h' : Heap) : Prop :=
  (∀ a, a < n → aget h'.mem a = aget h.mem a) ∧
  h.next ≤ h'.next ∧
  (∀ a d, aget h'.mem a = some d →
    aget h.mem a = some d ∨ (n ≤ a ∧ DictRefs (fun b => n ≤ b) d))

/-- Addresses at or above `n` hold dicts referring only to addresses at or
above `n`. -/
def HH (n : Nat) (h : Heap) : Prop :=
  ∀ a d, n ≤ a → aget h.mem a = some d → DictRefs (fun b => n ≤ b) d

/-! ### Basic heap lemmas -/

theorem aget_mem {α : Type} {l : List (Nat × α)} {a : Nat} {d : α}
    (h : aget l a = some d) : (a, d) ∈ l := by
  induction l with
  | nil => simp [aget] at h
  | cons p rest ih =>
      by_cases hp : p.1 = a
      · simp [aget, hp] at h
        subst hp
        rw [← h]
        exact List.mem_cons_self _ _
      · simp [aget, hp] at h
        exact List.mem_cons_of_mem _ (ih h)

theorem dget_mem {α : Type} {l : List (String × α)} {k : String} {v : α}
    (h : dget l k = some v) : (k, v) ∈ l := by
  induction l with
  | nil => simp [dget] at h
  | cons p rest ih =>
      by_cases hp : p.1 = k
      · simp [dget, hp] at h
        subst hp
        rw [← h]
        exact List.mem_cons_self _ _
      · simp [dget, hp] at h
        exact List.mem_cons_of_mem _ (ih h)

theorem valRefs_mono {P Q : Nat → Prop} (hpq : ∀ a, P a → Q a) :
    ∀ {v : HVal}, ValRefs P v → ValRefs Q v := by
  intro v hv
  induction hv with
  | hstr s => exact .hstr s
  | hint n => exact .hint n
  | hnull => exact .hnull
  | href h => exact .href (hpq _ h)
  | hlist hxs ih => exact .hlist ih

theorem dictRefs_mono {P Q : Nat → Prop} (hpq : ∀ a, P a → Q a)
    {d : HDict} (hd : DictRefs P d) : DictRefs Q d :=
  fun p hp => valRefs_mono hpq (hd p hp)

theorem aget_alloc_self (h : Heap) (d : HDict) :
    aget (alloc h d).1.mem h.next = some d := by
  simp [alloc, aget]

theorem aget_alloc_other (h : Heap) (d : HDict) (a : Nat)
    (ha : a ≠ h.next) : aget (alloc h d).1.mem a = aget h.mem a := by
  have : ¬(h.next = a) := fun e => ha e.symm
  simp [alloc, aget, this]

theorem aget_updateH_other (h : Heap) (a : Nat) (d : HDict) (a' : Nat)
    (ha : a' ≠ a) : aget (updateH h a d).mem a' = aget h.mem a' := by
  show aget (h.mem.map fun p => if p.1 = a then (a, d) else p) a' = _
  induction h.mem with
  | nil => rfl
  | cons p rest ih =>
      by_cases hp : p.1 = a
      · have hk : ¬(a = a') := fun he => ha he.symm
        simp [aget, hp, hk]
        exact ih
      · by_cases hp' : p.1 = a'
        · simp [aget, hp, hp', ha]
        · simp [aget, hp, hp']
          exact ih

theorem CP_refl (n : Nat) (h : Heap) : CP n h h :=
  ⟨fun _ _ => rfl, Nat.le_refl _, fun _ _ hd => Or.inl hd⟩

theorem CP_trans {n : Nat} {h₁ h₂ h₃ : Heap} (c₁ : CP n h₁ h₂)
    (c₂ : CP n h₂ h₃) : CP n h₁ h₃ := by
  refine ⟨fun a ha => ?_, Nat.le_trans c₁.2.1 c₂.2.1, fun a d hd => ?_⟩
  · rw [c₂.1 a ha, c₁.1 a ha]
  · cases c₂.2.2 a d hd with
    | inl h => exact c₁.2.2 a d h
    | inr h => exact Or.inr h

theorem CP_alloc (n : Nat) (h : Heap) (d : HDict) (hn : n ≤ h.next)
    (hd : DictRefs (fun b => n ≤ b) d) : CP n h (alloc h d).1 := by
  refine ⟨fun a ha => ?_, Nat.le_succ _, fun a d₀ hd₀ => ?_⟩
  · exact aget_alloc_other h d a (by omega)
  · by_cases hae : a = h.next
    · subst hae
      rw [aget_alloc_self] at hd₀
      cases hd₀
      exact Or.inr ⟨hn, hd⟩
    · rw [aget_alloc_other h d a hae] at hd₀
      exact Or.inl hd₀

/-- `CP` at `n = h.next` plus original well-formedness gives the
high-address closure of the evolved heap. -/
theorem HH_of_CP {h h' : Heap} (hwf : HeapWF h) (hcp : CP h.next h h') :
    HH h.next h' := by
  intro a d ha hd
  cases hcp.2.2 a d hd with
  | inl hmem =>
      have := (hwf _ (aget_mem hmem)).1
      omega
  | inr hfresh => exact hfresh.2

/-- Allocating an empty dict preserves high-address closure. -/
theorem HH_alloc_nil {n : Nat} {h : Heap} (hh : HH n h) :
    HH n (alloc h []).1 := by
  intro a d ha hd
  by_cases hae : a = h.next
  · subst hae
    rw [aget_alloc_self] at hd
    cases hd
    intro p hp
    cases hp
  · rw [aget_alloc_other h [] a hae] at hd
    exact hh a d ha hd

/-! ### Deep-copy specification: only fresh addresses are written, and the
copy refers only to fresh addresses. -/

theorem copyListWith_spec (n : Nat) (c : Heap → HVal → Option (Heap × HVal))
    (hc : ∀ h v h' v', n ≤ h.next → c h v = some (h', v') →
      CP n h h' ∧ ValRefs (fun b => n ≤ b) v') :
    ∀ (xs : List HVal) (h h' : Heap) (xs' : List HVal), n ≤ h.next →
      copyListWith c h xs = some (h', xs') →
      CP n h h' ∧ ∀ x' ∈ xs', ValRefs (fun b => n ≤ b) x' := by
  intro xs
  induction xs with
  | nil =>
      intro h h' xs' hn hrun
      simp [copyListWith] at hrun
      obtain ⟨rfl, rfl⟩ := hrun
      exact ⟨CP_refl n h, fun x hx => absurd hx (List.not_mem_nil x)⟩
  | cons x rest ih =>
      intro h h' xs' hn hrun
      cases hc1 : c h x with
      | none => simp [copyListWith, hc1] at hrun
      | some p =>
          obtain ⟨h₁, x'⟩ := p
          cases hrest : copyListWith c h₁ rest with
          | none => simp [copyListWith, hc1, hrest] at hrun
          | some q =>
              obtain ⟨h₂, xs₀⟩ := q
              simp [copyListWith, hc1, hrest] at hrun
              obtain ⟨rfl, rfl⟩ := hrun
              have s1 := hc h x h₁ x' hn hc1
              have hn₁ : n ≤ h₁.next := Nat.le_trans hn s1.1.2.1
              have s2 := ih h₁ h₂ xs₀ hn₁ hrest
              refine ⟨CP_trans s1.1 s2.1, ?_⟩
              intro y hy
              rcases List.mem_cons.mp hy with rfl | hy'
              · exact s1.2
              · exact s2.2 y hy'

theorem copyDictWith_spec (n : Nat) (c : Heap → HVal → Option (Heap × HVal))
    (hc : ∀ h v h' v', n ≤ h.next → c h v = some (h', v') →
      CP n h h' ∧ ValRefs (fun b => n ≤ b) v') :
    ∀ (d : HDict) (h h' : Heap) (d' : HDict), n ≤ h.next →
      copyDictWith c h d = some (h', d') →
      CP n h h' ∧ DictRefs (fun b => n ≤ b) d' := by
  intro d
  induction d with
  | nil =>
      intro h h' d' hn hrun
      simp [copyDictWith] at hrun
      obtain ⟨rfl, rfl⟩ := hrun
      exact ⟨CP_refl n h, fun p hp => absurd hp (List.not_mem_nil p)⟩
  | cons e rest ih =>
      intro h h' d' hn hrun
      obtain ⟨k, x⟩ := e
      cases hc1 : c h x with
      | none => simp [copyDictWith, hc1] at hrun
      | some p =>
          obtain ⟨h₁, x'⟩ := p
          cases hrest : copyDictWith c h₁ rest with
          | none => simp [copyDictWith, hc1, hrest] at hrun
          | some q =>
              obtain ⟨h₂, d₀⟩ := q
              simp [copyDictWith, hc1, hrest] at hrun
              obtain ⟨rfl, rfl⟩ := hrun
              have s1 := hc h x h₁ x' hn hc1
              have hn₁ : n ≤ h₁.next := Nat.le_trans hn s1.1.2.1
              have s2 := ih h₁ h₂ d₀ hn₁ hrest
              refine ⟨CP_trans s1.1 s2.1, ?_⟩
              intro q hq
              rcases List.mem_cons.mp hq with rfl | hq'
              · exact s1.2
              · exact s2.2 q hq'

theorem copyVal_spec (n : Nat) :
    ∀ (f : Nat) (h : Heap) (v : HVal) (h' : Heap) (v' : HVal), n ≤ h.next →
      copyVal f h v = some (h', v') →
      CP n h h' ∧ ValRefs (fun b => n ≤ b) v' := by
  intro f
  induction f with
  | zero => intro h v h' v' _ hrun; simp [copyVal] at hrun
  | succ f ih =>
      intro h v h' v' hn hrun
      cases v with
      | hstr s =>
          simp [copyVal] at hrun
          obtain ⟨rfl, rfl⟩ := hrun
          exact ⟨CP_refl n h, .hstr s⟩
      | hint m =>
          simp [copyVal] at hrun
          obtain ⟨rfl, rfl⟩ := hrun
          exact ⟨CP_refl n h, .hint m⟩
      | hnull =>
          simp [copyVal] at hrun
          obtain ⟨rfl, rfl⟩ := hrun
          exact ⟨CP_refl n h, .hnull⟩
      | hlist xs =>
          cases hcl : copyListWith (copyVal f) h xs with
          | none => simp [copyVal, hcl] at hrun
          | some p =>
              obtain ⟨h₁, xs'⟩ := p
              simp [copyVal, hcl] at hrun
              obtain ⟨rfl, rfl⟩ := hrun
              have s := copyListWith_spec n (copyVal f) ih xs h h₁ xs' hn hcl
              exact ⟨s.1, .hlist s.2⟩
      | href a =>
          cases hda : aget h.mem a with
          | none => simp [copyVal, hda] at hrun
          | some d =>
              cases hcd : copyDictWith (copyVal f) h d with
              | none => simp [copyVal, hda, hcd] at hrun
              | some p =>
                  obtain ⟨h₁, d'⟩ := p
                  simp [copyVal, hda, hcd] at hrun
                  obtain ⟨rfl, rfl⟩ := hrun
                  have sd := copyDictWith_spec n (copyVal f) ih d h h₁ d' hn hcd
                  have hn₁ : n ≤ h₁.next := Nat.le_trans hn sd.1.2.1
                  exact ⟨CP_trans sd.1 (CP_alloc n h₁ d' hn₁ sd.2),
                         .href hn₁⟩

/-! ### Deep reads only depend on the low part of the heap -/

theorem readListWith_congr {c₁ c₂ : HVal → Option PVal} :
    ∀ {xs : List HVal}, (∀ x ∈ xs, c₁ x = c₂ x) →
      readListWith c₁ xs = readListWith c₂ xs := by
  intro xs
  induction xs with
  | nil => intro _; rfl
  | cons x rest ih =>
      intro hx
      simp only [readListWith]
      rw [hx x (List.mem_cons_self x rest),
          ih (fun y hy => hx y (List.mem_cons_of_mem x hy))]

theorem readDictWith_congr {c₁ c₂ : HVal → Option PVal} :
    ∀ {d : HDict}, (∀ p ∈ d, c₁ p.2 = c₂ p.2) →
      readDictWith c₁ d = readDictWith c₂ d := by
  intro d
  induction d with
  | nil => intro _; rfl
  | cons e rest ih =>
      intro he
      obtain ⟨k, x⟩ := e
      simp only [readDictWith]
      rw [he (k, x) (List.mem_cons_self _ rest),
          ih (fun q hq => he q (List.mem_cons_of_mem _ hq))]

theorem read_agree (n : Nat) (h₁ h₂ : Heap)
    (hag : ∀ a, a < n → aget h₁.mem a = aget h₂.mem a)
    (hcl : ∀ a d, a < n → aget h₁.mem a = some d →
      DictRefs (fun b => b < n) d) :
    ∀ (f : Nat) (v : HVal), ValRefs (fun b => b < n) v →
      readVal f h₁ v = readVal f h₂ v := by
  intro f
  induction f with
  | zero => intro v _; rfl
  | succ f ih =>
      intro v hv
      cases v with
      | hstr s => rfl
      | hint m => rfl
      | hnull => rfl
      | hlist xs =>
          have hxs : ∀ x ∈ xs, ValRefs (fun b => b < n) x := by
            cases hv with | hlist h => exact h
          simp only [readVal]
          rw [readListWith_congr (fun x hx => ih x (hxs x hx))]
      | href a =>
          have ha : a < n := by
            cases hv with | href h => exact h
          cases hd : aget h₁.mem a with
          | none =>
              have hd₂ : aget h₂.mem a = none := by
                rw [← hag a ha]; exact hd
              simp [readVal, hd, hd₂]
          | some d =>
              have hd₂ : aget h₂.mem a = some d := by
                rw [← hag a ha]; exact hd
              have hdr := hcl a d ha hd
              simp only [readVal, hd, hd₂]
              rw [readDictWith_congr (fun p hp => ih p.2 (hdr p hp))]

/-! ### Frame lemmas for the trim program -/

theorem trimAtMl_frame {n : Nat} {h : Heap} {sAddr mlAddr : Nat} {h' : Heap}
    {res : Nat} (hml : n ≤ mlAddr)
    (hrun : trimAtMl h sAddr mlAddr = some (h', res)) :
    res = sAddr ∧ ∀ a, a < n → aget h'.mem a = aget h.mem a := by
  cases hda : aget h.mem mlAddr with
  | none => simp [trimAtMl, hda] at hrun
  | some mlDict =>
      cases hsl : sliceCompleted mlDict with
      | none => simp [trimAtMl, hda, hsl] at hrun
      | some newList =>
          simp [trimAtMl, hda, hsl] at hrun
          obtain ⟨rfl, rfl⟩ := hrun
          refine ⟨rfl, fun a ha => ?_⟩
          exact aget_updateH_other h mlAddr _ a (by omega)

theorem trimAtSrcs_frame {n : Nat} {h : Heap} {sAddr srcsAddr : Nat}
    {h' : Heap} {res : Nat} (hh : HH n h) (hnext : n ≤ h.next)
    (hsrcs : n ≤ srcsAddr)
    (hrun : trimAtSrcs h sAddr srcsAddr = some (h', res)) :
    res = sAddr ∧ ∀ a, a < n → aget h'.mem a = aget h.mem a := by
  cases hsd : aget h.mem srcsAddr with
  | none => simp [trimAtSrcs, hsd] at hrun
  | some srcsDict =>
      have hdr := hh srcsAddr srcsDict hsrcs hsd
      cases hml : dget srcsDict "azure_ml" with
      | some v =>
          cases v with
          | href mlAddr =>
              have hvm : ValRefs (fun b => n ≤ b) (.href mlAddr) :=
                hdr _ (dget_mem hml)
              have hmla : n ≤ mlAddr := by
                cases hvm with | href h => exact h
              simp [trimAtSrcs, hsd, hml] at hrun
              exact trimAtMl_frame hmla hrun
          | hstr s => simp [trimAtSrcs, hsd, hml] at hrun
          | hint m => simp [trimAtSrcs, hsd, hml] at hrun
          | hnull => simp [trimAtSrcs, hsd, hml] at hrun
          | hlist xs => simp [trimAtSrcs, hsd, hml] at hrun
      | none =>
          simp [trimAtSrcs, hsd, hml] at hrun
          have hfr := trimAtMl_frame (n := n)
            (show n ≤ (alloc h []).2 from hnext) hrun
          refine ⟨hfr.1, fun a ha => ?_⟩
          rw [hfr.2 a ha, aget_alloc_other h [] a (by omega)]

theorem trimAtCopy_frame {n : Nat} {h : Heap} {sAddr : Nat} {h' : Heap}
    {res : Nat} (hh : HH n h) (hnext : n ≤ h.next) (hs : n ≤ sAddr)
    (hrun : trimAtCopy h sAddr = some (h', res)) :
    res = sAddr ∧ ∀ a, a < n → aget h'.mem a = aget h.mem a := by
  cases hsd : aget h.mem sAddr with
  | none => simp [trimAtCopy, hsd] at hrun
  | some sDict =>
      have hdr := hh sAddr sDict hs hsd
      cases hsc : dget sDict "sources" with
      | some v =>
          cases v with
          | href srcsAddr =>
              have hvm : ValRefs (fun b => n ≤ b) (.href srcsAddr) :=
                hdr _ (dget_mem hsc)
              have hsa : n ≤ srcsAddr := by
                cases hvm with | href h => exact h
              simp [trimAtCopy, hsd, hsc] at hrun
              exact trimAtSrcs_frame hh hnext hsa hrun
          | hstr s => simp [trimAtCopy, hsd, hsc] at hrun
          | hint m => simp [trimAtCopy, hsd, hsc] at hrun
          | hnull => simp [trimAtCopy, hsd, hsc] at hrun
          | hlist xs => simp [trimAtCopy, hsd, hsc] at hrun
      | none =>
          simp [trimAtCopy, hsd, hsc] at hrun
          have hfr := trimAtSrcs_frame (HH_alloc_nil hh)
            (show n ≤ (alloc h []).1.next from by
              simp [alloc]; omega)
            (show n ≤ (alloc h []).2 from hnext) hrun
          refine ⟨hfr.1, fun a ha => ?_⟩
          rw [hfr.2 a ha, aget_alloc_other h [] a (by omega)]

/-- C8: `_trim_snapshot` never changes any field of the original snapshot —
for every well-formed heap, running the trim program leaves the deep value
readable from the original snapshot address unchanged at every read depth,
and the returned snapshot is a fresh deep copy (its address is above every
pre-existing address). -/
theorem trim_heap_no_mutation (fuel fr : Nat) (h h' : Heap)
    (snap res : Nat) (hwf : HeapWF h) (hsnap : snap < h.next)
    (hrun : trimProg fuel h snap = some (h', res)) :
    readVal fr h' (.href snap) = readVal fr h (.href snap) ∧
    h.next ≤ res := by
  cases hcv : copyVal fuel h (.href snap) with
  | none => simp [trimProg, hcv] at hrun
  | some p =>
      obtain ⟨h₁, sv⟩ := p
      cases sv with
      | hstr s => simp [trimProg, hcv] at hrun
      | hint m => simp [trimProg, hcv] at hrun
      | hnull => simp [trimProg, hcv] at hrun
      | hlist xs => simp [trimProg, hcv] at hrun
      | href sAddr =>
          simp [trimProg, hcv] at hrun
          obtain ⟨hcp, hvr⟩ :=
            copyVal_spec h.next fuel h (.href snap) h₁ (.href sAddr)
              (Nat.le_refl _) hcv
          have hsA : h.next ≤ sAddr := by
            cases hvr with | href hh' => exact hh'
          have hh1 : HH h.next h₁ := HH_of_CP hwf hcp
          obtain ⟨hres, hframe⟩ :=
            trimAtCopy_frame hh1 hcp.2.1 hsA hrun
          constructor
          · have hag : ∀ a, a < h.next → aget h.mem a = aget h'.mem a := by
              intro a ha
              rw [hframe a ha, hcp.1 a ha]
            have hcl : ∀ a d, a < h.next → aget h.mem a = some d →
                DictRefs (fun b => b < h.next) d := by
              intro a d _ hd
              exact (hwf _ (aget_mem hd)).2
            exact (read_agree h.next h h' hag hcl fr (.href snap)
              (.href hsnap)).symm
          · omega

/-- A concrete well-formed heap holding a snapshot dict (address 0) with a
sources dict (address 1) and an azure_ml dict (address 2) carrying six
completed jobs and one failed job. -/
def demoHeap : Heap :=
  { mem := [(0, [("collected_at", .hstr "2026-01-01T00:00:00+00:00"),
                 ("overall_status", .hstr "warning"),
                 ("sources", .href 1)]),
            (1, [("azure_ml", .href 2)]),
            (2, [("status", .hstr "warning"),
                 ("completed_jobs",
                   .hlist [.hstr "j1", .hstr "j2", .hstr "j3",
                           .hstr "j4", .hstr "j5", .hstr "j6"]),
                 ("failed_jobs", .hlist [.hstr "f1"])])],
    next := 3 }

theorem demoHeap_wf : HeapWF demoHeap := by
  intro p hp
  simp only [demoHeap, List.mem_cons, List.not_mem_nil, or_false] at hp
  rcases hp with rfl | rfl | rfl
  · refine ⟨by decide, ?_⟩
    intro q hq
    simp only [List.mem_cons, List.not_mem_nil, or_false] at hq
    rcases hq with rfl | rfl | rfl
    · exact .hstr _
    · exact .hstr _
    · exact .href (by decide)
  · refine ⟨by decide, ?_⟩
    intro q hq
    simp only [List.mem_cons, List.not_mem_nil, or_false] at hq
    rcases hq with rfl
    exact .href (by decide)
  · refine ⟨by decide, ?_⟩
    intro q hq
    simp only [List.mem_cons, List.not_mem_nil, or_false] at hq
    rcases hq with rfl | rfl | rfl
    · exact .hstr _
    · refine .hlist ?_
      intro x hx
      simp only [List.mem_cons, List.not_mem_nil, or_false] at hx
      rcases hx with rfl | rfl | rfl | rfl | rfl | rfl
      all_goals exact .hstr _
    · refine .hlist ?_
      intro x hx
      simp only [List.mem_cons, List.not_mem_nil, or_false] at hx
      rcases hx with rfl
      exact .hstr _

/-- Witness for C8: running the trim program on the concrete heap leaves the
deep value at the original snapshot address untouched, and returns a fresh
address. -/
theorem trim_heap_no_mutation_witness :
    readVal 10 ((trimProg 40 demoHeap 0).getD (demoHeap, 0)).1 (.href 0) =
      readVal 10 demoHeap (.href 0) ∧
    demoHeap.next ≤ ((trimProg 40 demoHeap 0).getD (demoHeap, 0)).2 :=
  trim_heap_no_mutation 40 10 demoHeap
    ((trimProg 40 demoHeap 0).getD (demoHeap, 0)).1 0
    ((trimProg 40 demoHeap 0).getD (demoHeap, 0)).2 demoHeap_wf
    (by decide) rfl

end HealthAgent
